import Mathlib

/-!
Verification of the fmus-fintech transaction lifecycle and contract dispatch
core against its natural-language specification.  Python sources are shallowly
embedded: pure functions become Lean functions, methods that mutate an object
become functions from the old state to the new state, fallible code returns
`Except String` (the string is the exception message built exactly as in the
source), and Python dictionaries become association lists.  Python strings are
modelled as `List Char` where character-level work matters and as `String`
elsewhere.
-/

namespace FmusFintech

/- ===================== utils/validation.py ===================== -/

/-- The hex alphabet from `is_hex`: membership in "0123456789abcdefABCDEF". -/
def hexAlphabet : List Char := "0123456789abcdefABCDEF".data

/-- Membership in "0123456789abcdefABCDEF", from `is_hex`. -/
def isHexChar (c : Char) : Bool := hexAlphabet.contains c

/-- Embedding of `value.startswith("0x")` on a Python string modelled as a char list. -/
def startsWith0x : List Char → Bool
  | '0' :: 'x' :: _ => true
  | _ => false

/-- Embedding of `validation.is_hex(value, length)`: strips an optional
`0x` prefix, requires every remaining character to be hex, and when a byte
length is given requires exactly `length * 2` remaining characters. -/
def is_hex (value : List Char) (length : Option Nat) : Bool :=
  let v := if startsWith0x value then value.drop 2 else value
  if !(v.all isHexChar) then false
  else
    match length with
    | some l => v.length == l * 2
    | none => true

/-- Embedding of `validation.is_eth_address(address)`:
`address.startswith("0x") and is_hex(address[2:], 20)`. -/
def is_eth_address (address : List Char) : Bool :=
  startsWith0x address && is_hex (address.drop 2) (some 20)

/-- The address predicate as the spec words it: the prefix "0x" followed by
exactly 40 hexadecimal characters and nothing else. -/
def specValidEthAddress (address : List Char) : Bool :=
  startsWith0x address && (address.drop 2).all isHexChar
    && (address.drop 2).length == 40

/-- A 44-character string "0x0x000...0": the prefix "0x" followed by 42
characters, the first of which ('x' at index 3) is not hexadecimal. -/
def doublePrefixAddress : List Char :=
  '0' :: 'x' :: '0' :: 'x' :: List.replicate 40 '0'

/-- C9: the code accepts "0x0x" followed by 40 zeros (because `is_hex`
strips a second "0x" prefix from `address[2:]`), while the claimed predicate
— prefix "0x" then exactly 40 hex characters and nothing else — rejects it.
The code diverges from its own documented behavior at this input. -/
theorem c9_eth_address_double_prefix_divergence :
    is_eth_address doublePrefixAddress = true
      ∧ specValidEthAddress doublePrefixAddress = false := by
  constructor <;> decide

/- ===================== chains/ethereum.py : EthereumTransaction ===================== -/

/-- The constant `int.from_bytes(bytes.fromhex("11" * 32), byteorder="big")` from `sign`. -/
def sigR : Int := 0x1111111111111111111111111111111111111111111111111111111111111111

/-- The constant `int.from_bytes(bytes.fromhex("22" * 32), byteorder="big")` from `sign`. -/
def sigS : Int := 0x2222222222222222222222222222222222222222222222222222222222222222

/-- The string `"0x" + "33" * 32` — the hash cached by `sign`. -/
def signedHashStr : String := "0x" ++ String.mk (List.replicate 64 '3')

/-- The string `"0x" + "ff" * 256` — the value returned by `serialize` once signed. -/
def serializedStr : String := "0x" ++ String.mk (List.replicate 512 'f')

/-- State of `EthereumTransaction`: constructor fields plus the signature
fields `v`/`r`/`s` and the cached `_hash`, all absent until `sign`. -/
structure EthereumTransaction where
  toAddr : Option String
  value : Int
  gas_price : Option Int
  gas_limit : Option Int
  data : String
  nonce : Option Int
  chain_id : Int
  v : Option Int
  r : Option Int
  s : Option Int
  _hash : Option String
deriving DecidableEq, Repr

/-- Embedding of `EthereumTransaction.__init__`: `data or b''` defaults the payload to
empty; the four signature-related fields start as `None`. -/
def mkEthereumTransaction (toAddr : Option String) (value : Int)
    (gas_price gas_limit : Option Int) (data : Option String)
    (nonce : Option Int) (chain_id : Int) : EthereumTransaction :=
  { toAddr := toAddr, value := value, gas_price := gas_price, gas_limit := gas_limit,
    data := data.getD "", nonce := nonce, chain_id := chain_id,
    v := none, r := none, s := none, _hash := none }

/-- Embedding of `EthereumTransaction.sign`: fills `v`, `r`, `s` with the placeholder
signature and caches the hash; returns the updated transaction (`self`). -/
def EthereumTransaction.sign (tx : EthereumTransaction) (_private_key : String) :
    EthereumTransaction :=
  { tx with v := some (27 + tx.chain_id * 2), r := some sigR, s := some sigS,
            _hash := some signedHashStr }

/-- Embedding of `EthereumTransaction.serialize`: raises "Transaction is not signed" when
any of `v`, `r`, `s` is `None`; otherwise returns the placeholder encoding. -/
def EthereumTransaction.serialize (tx : EthereumTransaction) : Except String String :=
  if tx.v.isNone || tx.r.isNone || tx.s.isNone then
    .error "Transaction is not signed"
  else
    .ok serializedStr

/-- Embedding of `EthereumTransaction.get_hash`: raises "Transaction is not signed" when
the cached `_hash` is `None`, else returns it. -/
def EthereumTransaction.get_hash (tx : EthereumTransaction) : Except String String :=
  match tx._hash with
  | none => .error "Transaction is not signed"
  | some h => .ok h

/-- All three signature fields are populated. -/
def EthereumTransaction.signed (tx : EthereumTransaction) : Prop :=
  tx.v ≠ none ∧ tx.r ≠ none ∧ tx.s ≠ none

/-- Transactions reachable through the public API: freshly constructed
(unsigned) or the result of `sign` on a reachable transaction. -/
inductive ReachableTx : EthereumTransaction → Prop
  | mk (toAddr value gas_price gas_limit data nonce chain_id) :
      ReachableTx (mkEthereumTransaction toAddr value gas_price gas_limit data nonce chain_id)
  | sign (tx : EthereumTransaction) (key : String) :
      ReachableTx tx → ReachableTx (tx.sign key)

/- ===================== chains/ethereum.py : EthereumTransactionBuilder ===================== -/

/-- Builder state: the base-class accumulator fields (`TransactionBuilder.__init__`)
plus the Ethereum-specific fee fields and the transaction type tag
(`_type = 0` legacy, set to `2` by `eip1559_fee`). -/
structure EthereumTransactionBuilder where
  _chain_id : Int
  _to : Option String := none
  _value : Int := 0
  _data : Option String := none
  _fee : Option Int := none
  _nonce : Option Int := none
  _gas_price : Option Int := none
  _gas_limit : Option Int := none
  _max_fee_per_gas : Option Int := none
  _max_priority_fee_per_gas : Option Int := none
  _type : Nat := 0
deriving DecidableEq, Repr

/-- Embedding of `EthereumTransactionBuilder.__init__(chain_id)`. -/
def EthereumTransactionBuilder.init (chain_id : Int) : EthereumTransactionBuilder :=
  { _chain_id := chain_id }

/-- Embedding of `TransactionBuilder.to`. -/
def EthereumTransactionBuilder.toAddr (b : EthereumTransactionBuilder) (address : String) :
    EthereumTransactionBuilder := { b with _to := some address }

/-- Embedding of `TransactionBuilder.value`. -/
def EthereumTransactionBuilder.value (b : EthereumTransactionBuilder) (amount : Int) :
    EthereumTransactionBuilder := { b with _value := amount }

/-- Embedding of `TransactionBuilder.data`. -/
def EthereumTransactionBuilder.data (b : EthereumTransactionBuilder) (d : String) :
    EthereumTransactionBuilder := { b with _data := some d }

/-- Embedding of `TransactionBuilder.fee`. -/
def EthereumTransactionBuilder.fee (b : EthereumTransactionBuilder) (f : Int) :
    EthereumTransactionBuilder := { b with _fee := some f }

/-- Embedding of `TransactionBuilder.nonce`. -/
def EthereumTransactionBuilder.nonce (b : EthereumTransactionBuilder) (n : Int) :
    EthereumTransactionBuilder := { b with _nonce := some n }

/-- Embedding of `EthereumTransactionBuilder.gas_price`: sets `_gas_price` only — it does
not touch the `_type` tag. -/
def EthereumTransactionBuilder.gas_price (b : EthereumTransactionBuilder) (price : Int) :
    EthereumTransactionBuilder := { b with _gas_price := some price }

/-- Embedding of `EthereumTransactionBuilder.gas_limit`. -/
def EthereumTransactionBuilder.gas_limit (b : EthereumTransactionBuilder) (limit : Int) :
    EthereumTransactionBuilder := { b with _gas_limit := some limit }

/-- Embedding of `EthereumTransactionBuilder.eip1559_fee`: sets `_type = 2` and both
dual-fee fields. -/
def EthereumTransactionBuilder.eip1559_fee (b : EthereumTransactionBuilder)
    (max_fee_per_gas max_priority_fee_per_gas : Int) : EthereumTransactionBuilder :=
  { b with _type := 2, _max_fee_per_gas := some max_fee_per_gas,
           _max_priority_fee_per_gas := some max_priority_fee_per_gas }

/-- Embedding of `EthereumTransactionBuilder.build`: requires `_to` unconditionally;
for `_type == 0` additionally requires `_gas_price`; both branches construct
the same legacy-shaped `EthereumTransaction` (the EIP-1559 branch is a
placeholder that performs no fee-field check). -/
def EthereumTransactionBuilder.build (b : EthereumTransactionBuilder) :
    Except String EthereumTransaction :=
  if b._to.isNone then
    .error "Recipient address (to) is required"
  else if b._type == 0 then
    if b._gas_price.isNone then
      .error "Gas price is required for legacy transactions"
    else
      .ok (mkEthereumTransaction b._to b._value b._gas_price b._gas_limit
            b._data b._nonce b._chain_id)
  else
    .ok (mkEthereumTransaction b._to b._value b._gas_price b._gas_limit
          b._data b._nonce b._chain_id)

/-- One fluent setter invocation on the builder. -/
inductive BuilderCall
  | toAddr (address : String)
  | value (amount : Int)
  | data (d : String)
  | fee (f : Int)
  | nonce (n : Int)
  | gas_price (price : Int)
  | gas_limit (limit : Int)
  | eip1559_fee (max_fee max_priority : Int)
deriving DecidableEq, Repr

/-- Apply one setter call to a builder state. -/
def applyBuilderCall (b : EthereumTransactionBuilder) : BuilderCall → EthereumTransactionBuilder
  | .toAddr a => b.toAddr a
  | .value a => b.value a
  | .data d => b.data d
  | .fee f => b.fee f
  | .nonce n => b.nonce n
  | .gas_price p => b.gas_price p
  | .gas_limit l => b.gas_limit l
  | .eip1559_fee mf mp => b.eip1559_fee mf mp

/-- Apply a sequence of setter calls left to right. -/
def applyBuilderCalls (b : EthereumTransactionBuilder) (cs : List BuilderCall) :
    EthereumTransactionBuilder :=
  cs.foldl applyBuilderCall b

/-- Does the call invoke `eip1559_fee`? -/
def isEip1559Call : BuilderCall → Bool
  | .eip1559_fee _ _ => true
  | _ => false

/-- Every API-reachable transaction is either still in its constructed state
(all four signature-related fields `None`) or is the output of `sign` on a
reachable transaction (all four fields populated with the values `sign`
writes). -/
theorem reachable_tx_cases (tx : EthereumTransaction) (hr : ReachableTx tx) :
    (tx.v = none ∧ tx.r = none ∧ tx.s = none ∧ tx._hash = none)
    ∨ (tx.v = some (27 + tx.chain_id * 2) ∧ tx.r = some sigR ∧ tx.s = some sigS
        ∧ tx._hash = some signedHashStr
        ∧ ∃ tx0 key, ReachableTx tx0 ∧ tx = tx0.sign key) := by
  induction hr with
  | mk toAddr value gas_price gas_limit data nonce chain_id =>
    exact Or.inl ⟨rfl, rfl, rfl, rfl⟩
  | sign tx0 key h0 _ih =>
    exact Or.inr ⟨rfl, rfl, rfl, rfl, tx0, key, h0, rfl⟩

/-- C3: for every transaction reachable through the public API, `get_hash`
and `serialize` succeed iff all three signature fields are populated, iff
`sign` has been called; unsigned, both raise "Transaction is not signed";
signed, both deterministically return the same fixed values on every call. -/
theorem c3_serialize_get_hash_iff_signed (tx : EthereumTransaction)
    (hr : ReachableTx tx) :
    ((∃ h, tx.get_hash = Except.ok h) ↔ tx.signed)
    ∧ ((∃ out, tx.serialize = Except.ok out) ↔ tx.signed)
    ∧ (tx.signed ↔ ∃ tx0 key, ReachableTx tx0 ∧ tx = tx0.sign key)
    ∧ (¬ tx.signed →
        tx.get_hash = Except.error "Transaction is not signed"
          ∧ tx.serialize = Except.error "Transaction is not signed")
    ∧ (tx.signed →
        tx.get_hash = Except.ok signedHashStr
          ∧ tx.serialize = Except.ok serializedStr) := by
  rcases reachable_tx_cases tx hr with
    ⟨hv, hr2, hs2, hh⟩ | ⟨hv, hr2, hs2, hh, hex⟩
  · have hns : ¬ tx.signed := by simp [EthereumTransaction.signed, hv]
    have hgh : tx.get_hash = Except.error "Transaction is not signed" := by
      simp [EthereumTransaction.get_hash, hh]
    have hse : tx.serialize = Except.error "Transaction is not signed" := by
      simp [EthereumTransaction.serialize, hv]
    refine ⟨iff_of_false ?_ hns, iff_of_false ?_ hns, iff_of_false hns ?_,
      fun _ => ⟨hgh, hse⟩, fun hcon => absurd hcon hns⟩
    · rintro ⟨h, hx⟩
      rw [hgh] at hx
      simp at hx
    · rintro ⟨out, hx⟩
      rw [hse] at hx
      simp at hx
    · rintro ⟨tx0, key, _, heq⟩
      have hfield := congrArg EthereumTransaction.v heq
      rw [hv] at hfield
      simp [EthereumTransaction.sign] at hfield
  · have hsg : tx.signed := by simp [EthereumTransaction.signed, hv, hr2, hs2]
    have hgh : tx.get_hash = Except.ok signedHashStr := by
      simp [EthereumTransaction.get_hash, hh]
    have hse : tx.serialize = Except.ok serializedStr := by
      simp [EthereumTransaction.serialize, hv, hr2, hs2]
    exact ⟨iff_of_true ⟨_, hgh⟩ hsg, iff_of_true ⟨_, hse⟩ hsg,
      iff_of_true hsg hex, fun hcon => absurd hsg hcon, fun _ => ⟨hgh, hse⟩⟩

/-- Witness for C3: a concrete signed transaction yields the cached hash and
serialization; the same transaction before signing raises the unsigned error. -/
theorem c3_serialize_get_hash_iff_signed_witness :
    ((mkEthereumTransaction none 0 none none none none 1).sign "k").get_hash
        = Except.ok signedHashStr
    ∧ ((mkEthereumTransaction none 0 none none none none 1).sign "k").serialize
        = Except.ok serializedStr
    ∧ (mkEthereumTransaction none 0 none none none none 1).get_hash
        = Except.error "Transaction is not signed" := by
  have hbase : ReachableTx (mkEthereumTransaction none 0 none none none none 1) :=
    ReachableTx.mk none 0 none none none none 1
  have h1 := c3_serialize_get_hash_iff_signed _ (ReachableTx.sign _ "k" hbase)
  have h2 := c3_serialize_get_hash_iff_signed _ hbase
  have hsg : ((mkEthereumTransaction none 0 none none none none 1).sign "k").signed := by
    simp [EthereumTransaction.sign, EthereumTransaction.signed]
  have hns : ¬ (mkEthereumTransaction none 0 none none none none 1).signed := by
    simp [mkEthereumTransaction, EthereumTransaction.signed]
  exact ⟨(h1.2.2.2.2 hsg).1, (h1.2.2.2.2 hsg).2, (h2.2.2.2.1 hns).1⟩

/-- C4: the builder state produced on the contract-deployment path
(`EthereumContract.deploy` sets only the payload, deliberately leaving the
recipient unset) is rejected by `build` with the missing-recipient error, so
a deployment transaction is never buildable, contradicting the claim. -/
theorem c4_deployment_build_missing_recipient (chain_id : Int) (bytecode : String) :
    ((EthereumTransactionBuilder.init chain_id).data bytecode).build
      = Except.error "Recipient address (to) is required" := rfl

/-- C5 counterexample: calling `gas_price` after `eip1559_fee` leaves the
type tag at `2` (dual-fee) — not the legacy tag `0` the claim requires. -/
theorem c5_gas_price_after_eip1559_not_legacy :
    ((((EthereumTransactionBuilder.init 1).eip1559_fee 2 1).gas_price 5)._type = 2)
    ∧ ((((EthereumTransactionBuilder.init 1).eip1559_fee 2 1).gas_price 5)._type ≠ 0) := by
  constructor <;> decide

/-- C5 amended: the fee-scheme tag is sticky, not last-setter-wins — after
any sequence of setter calls it is `2` iff `eip1559_fee` appears anywhere in
the sequence, and otherwise keeps its previous value; `gas_price` never
resets it. -/
theorem c5_fee_scheme_tag_sticky (b : EthereumTransactionBuilder)
    (cs : List BuilderCall) :
    (applyBuilderCalls b cs)._type
      = if cs.any isEip1559Call then 2 else b._type := by
  induction cs generalizing b with
  | nil => simp [applyBuilderCalls]
  | cons c rest ih =>
    have hstep : applyBuilderCalls b (c :: rest)
        = applyBuilderCalls (applyBuilderCall b c) rest := rfl
    rw [hstep, ih]
    cases c <;>
      simp [applyBuilderCall, isEip1559Call,
        EthereumTransactionBuilder.toAddr, EthereumTransactionBuilder.value,
        EthereumTransactionBuilder.data, EthereumTransactionBuilder.fee,
        EthereumTransactionBuilder.nonce, EthereumTransactionBuilder.gas_price,
        EthereumTransactionBuilder.gas_limit, EthereumTransactionBuilder.eip1559_fee]

/- ===================== chains/ethereum.py : EthereumTransactionManager ===================== -/

/-- A raw JSON log entry, carried opaquely as a string-keyed record. -/
abbrev LogEntry := List (String × String)

/-- From `core/transaction.py`: the `TransactionReceipt` parsed receipt record. -/
structure TransactionReceipt where
  transaction_hash : String
  block_number : Int
  block_hash : String
  status : Bool
  gas_used : Int
  logs : List LogEntry
deriving DecidableEq, Repr

/-- The JSON object returned for `eth_getTransactionReceipt`, fields still
hex-encoded strings as they arrive on the wire. -/
structure RawReceiptObject where
  transactionHash : String
  blockNumber : String
  blockHash : String
  status : String
  gasUsed : String
  logs : List LogEntry
deriving DecidableEq, Repr

/-- Numeric value of one hex digit (only used on valid hex characters). -/
def hexDigitVal (c : Char) : Nat :=
  if c.isDigit then c.toNat - 48
  else if 'a' ≤ c then c.toNat - 87
  else c.toNat - 55

/-- Embedding of Python `int(s, 16)` on the RPC hex strings: an optional
"0x" prefix followed by at least one hex digit; anything else raises. -/
def pyIntHex (s : List Char) : Except String Int :=
  let digits := if startsWith0x s then s.drop 2 else s
  if digits ≠ [] ∧ digits.all isHexChar then
    .ok (Int.ofNat (digits.foldl (fun acc c => acc * 16 + hexDigitVal c) 0))
  else
    .error ("invalid literal for int() with base 16: " ++ String.mk s)

/-- Embedding of `EthereumTransactionManager.get_receipt`, as a function of
the provider response for `eth_getTransactionReceipt`: a transport error or
a hex-parse failure is wrapped as "Failed to get receipt: ..."; a `null`
result is returned as absent (not an error); otherwise the receipt record is
built, its success flag being `result["status"] == "0x1"`. -/
def get_receipt (resp : Except String (Option RawReceiptObject)) :
    Except String (Option TransactionReceipt) :=
  match resp with
  | .error e => .error ("Failed to get receipt: " ++ e)
  | .ok none => .ok none
  | .ok (some result) =>
    match pyIntHex result.blockNumber.data, pyIntHex result.gasUsed.data with
    | .ok bn, .ok gu =>
        .ok (some { transaction_hash := result.transactionHash,
                    block_number := bn,
                    block_hash := result.blockHash,
                    status := result.status == "0x1",
                    gas_used := gu,
                    logs := result.logs })
    | .error e, _ => .error ("Failed to get receipt: " ++ e)
    | _, .error e => .error ("Failed to get receipt: " ++ e)

/-- From `core/transaction.py`: the `TransactionStatus` enumeration. -/
inductive TransactionStatus
  | pending
  | confirmed
  | failed
  | unknown
deriving DecidableEq, Repr

/-- Embedding of `EthereumTransactionManager.get_status`: queries
`get_receipt` and maps absent to pending, success flag to confirmed/failed,
and any exception to unknown (the `try/except` is total). -/
def get_status (resp : Except String (Option RawReceiptObject)) :
    TransactionStatus :=
  match get_receipt resp with
  | .error _ => .unknown
  | .ok none => .pending
  | .ok (some receipt) => if receipt.status then .confirmed else .failed

/-- C7: for every behavior of the underlying receipt query, `get_status`
returns exactly one of the four statuses and never raises: absent receipt ↔
pending, receipt with success flag true ⇒ confirmed / false ⇒ failed, and
any retrieval error (transport or receipt-parse failure) ↔ unknown. -/
theorem c7_get_status_total_mapping (resp : Except String (Option RawReceiptObject)) :
    (get_status resp = .pending ∨ get_status resp = .confirmed
      ∨ get_status resp = .failed ∨ get_status resp = .unknown)
    ∧ (get_receipt resp = .ok none ↔ get_status resp = .pending)
    ∧ (∀ receipt, get_receipt resp = .ok (some receipt) →
        get_status resp = if receipt.status then .confirmed else .failed)
    ∧ ((∃ e, get_receipt resp = .error e) ↔ get_status resp = .unknown)
    ∧ (∀ e, resp = .error e → get_status resp = .unknown) := by
  unfold get_status
  match hq : get_receipt resp with
  | .error e =>
    refine ⟨Or.inr (Or.inr (Or.inr rfl)), ?_, ?_, ?_, fun _ _ => rfl⟩
    · constructor
      · intro hcon; simp at hcon
      · intro hcon; simp at hcon
    · intro receipt hcon; simp at hcon
    · exact iff_of_true ⟨e, rfl⟩ rfl
  | .ok none =>
    refine ⟨Or.inl rfl, iff_of_true rfl rfl, ?_, ?_, ?_⟩
    · intro receipt hcon; simp at hcon
    · constructor
      · rintro ⟨e, hcon⟩; simp at hcon
      · intro hcon; simp at hcon
    · intro e hresp
      rw [hresp] at hq
      simp [get_receipt] at hq
  | .ok (some receipt) =>
    refine ⟨?_, ?_, ?_, ?_, ?_⟩
    · by_cases hs : receipt.status <;> simp [hs]
    · constructor
      · intro hcon; simp at hcon
      · intro hcon
        by_cases hs : receipt.status <;> simp [hs] at hcon
    · intro rc hrc
      cases hrc
      rfl
    · constructor
      · rintro ⟨e, hcon⟩; simp at hcon
      · intro hcon
        by_cases hs : receipt.status <;> simp [hs] at hcon
    · intro e hresp
      rw [hresp] at hq
      simp [get_receipt] at hq

/-- Witness for C7: a null result maps to pending, a parsed receipt with
status "0x1" maps to confirmed, and a transport error maps to unknown. -/
def sampleRawReceipt : RawReceiptObject :=
  { transactionHash := "0xabc", blockNumber := "0x10", blockHash := "0xdef",
    status := "0x1", gasUsed := "0x5208", logs := [] }

def sampleParsedReceipt : TransactionReceipt :=
  { transaction_hash := "0xabc", block_number := 16, block_hash := "0xdef",
    status := true, gas_used := 21000, logs := [] }

theorem c7_get_status_total_mapping_witness :
    get_status (.ok none) = .pending
    ∧ get_status (.ok (some sampleRawReceipt)) = .confirmed
    ∧ get_status (.error "boom") = .unknown := by
  refine ⟨(c7_get_status_total_mapping (.ok none)).2.1.mp rfl, ?_,
    (c7_get_status_total_mapping (.error "boom")).2.2.2.2 "boom" rfl⟩
  have h := (c7_get_status_total_mapping (.ok (some sampleRawReceipt))).2.2.1
  have hr := h sampleParsedReceipt (by rfl)
  simpa [sampleParsedReceipt] using hr

/-- Python dict assignment `m[k] = v` on an association list: overwrite the
existing entry for `k`, else append. -/
def pyDictSet (m : List (String × EthereumTransaction)) (k : String)
    (v : EthereumTransaction) : List (String × EthereumTransaction) :=
  if m.any (fun p => p.1 == k) then
    m.map (fun p => if p.1 == k then (k, v) else p)
  else
    m ++ [(k, v)]

/-- Embedding of `EthereumTransactionManager.broadcast` over the network
submission capability (`eth_sendRawTransaction`, returning the node's hash):
serialize, submit, and only then record the pending transaction; any failure
is wrapped and the pending map is returned untouched. -/
def broadcast (submitRawTransaction : String → Except String String)
    (pending : List (String × EthereumTransaction)) (tx : EthereumTransaction) :
    Except String String × List (String × EthereumTransaction) :=
  match tx.serialize with
  | .error e => (.error ("Failed to broadcast transaction: " ++ e), pending)
  | .ok serialized =>
    match submitRawTransaction serialized with
    | .error e => (.error ("Failed to broadcast transaction: " ++ e), pending)
    | .ok tx_hash => (.ok tx_hash, pyDictSet pending tx_hash tx)

/-- C2: on a successful submission `broadcast` returns the node's hash and
inserts `(hash → transaction)` into the pending map; on any failure —
including an unsigned transaction, whose serialization raises — it returns
the wrapped error and the pending map exactly as it was. -/
theorem c2_broadcast_inserts_only_on_success
    (submitRawTransaction : String → Except String String)
    (pending : List (String × EthereumTransaction)) (tx : EthereumTransaction) :
    (∀ e, (broadcast submitRawTransaction pending tx).1 = .error e →
        (broadcast submitRawTransaction pending tx).2 = pending)
    ∧ (∀ serialized tx_hash, tx.serialize = .ok serialized →
        submitRawTransaction serialized = .ok tx_hash →
        broadcast submitRawTransaction pending tx
          = (.ok tx_hash, pyDictSet pending tx_hash tx))
    ∧ (¬ tx.signed →
        broadcast submitRawTransaction pending tx
          = (.error "Failed to broadcast transaction: Transaction is not signed",
             pending)) := by
  refine ⟨?_, ?_, ?_⟩
  · intro e
    unfold broadcast
    split
    · intro _; rfl
    · split
      · intro _; rfl
      · intro hcon; simp at hcon
  · intro serialized tx_hash hser hsub
    unfold broadcast
    split
    · rename_i e0 heq
      rw [hser] at heq
      simp at heq
    · rename_i serialized0 heq
      rw [hser] at heq
      injection heq with h0
      subst h0
      split
      · rename_i e0 heq2
        rw [hsub] at heq2
        simp at heq2
      · rename_i hash0 heq2
        rw [hsub] at heq2
        injection heq2 with h1
        subst h1
        rfl
  · intro hns
    have hser : tx.serialize = .error "Transaction is not signed" := by
      unfold EthereumTransaction.serialize
      unfold EthereumTransaction.signed at hns
      push_neg at hns
      rcases Option.eq_none_or_eq_some tx.v with hv | ⟨a, hv⟩
      · simp [hv]
      · rcases Option.eq_none_or_eq_some tx.r with hrr | ⟨b, hrr⟩
        · simp [hrr]
        · have hs3 := hns (by simp [hv]) (by simp [hrr])
          simp [hs3]
    unfold broadcast
    split
    · rename_i e0 heq
      rw [hser] at heq
      injection heq with h0
      subst h0
      rfl
    · rename_i serialized0 heq
      rw [hser] at heq
      simp at heq

/-- Witness for C2: a concrete signed transaction with an accepting node is
recorded pending under the returned hash; the same transaction unsigned is
rejected and the pending map stays empty. -/
theorem c2_broadcast_inserts_only_on_success_witness :
    broadcast (fun _ => .ok "0xdeadbeef") []
        ((mkEthereumTransaction (some "0xaa") 5 (some 1) none none none 1).sign "k")
      = (.ok "0xdeadbeef",
         [("0xdeadbeef",
           (mkEthereumTransaction (some "0xaa") 5 (some 1) none none none 1).sign "k")])
    ∧ broadcast (fun _ => .ok "0xdeadbeef") []
        (mkEthereumTransaction (some "0xaa") 5 (some 1) none none none 1)
      = (.error "Failed to broadcast transaction: Transaction is not signed", []) := by
  constructor
  · have h := (c2_broadcast_inserts_only_on_success (fun _ => .ok "0xdeadbeef") []
      ((mkEthereumTransaction (some "0xaa") 5 (some 1) none none none 1).sign "k")).2.1
      serializedStr "0xdeadbeef" (by rfl) (by rfl)
    simpa [pyDictSet] using h
  · exact (c2_broadcast_inserts_only_on_success (fun _ => .ok "0xdeadbeef") []
      (mkEthereumTransaction (some "0xaa") 5 (some 1) none none none 1)).2.2
      (by simp [mkEthereumTransaction, EthereumTransaction.signed])

/-- The `TimeoutError` message raised by `wait_for_receipt`:
`f"Transaction {tx_hash} not mined within {timeout} seconds"` — it names
both the hash and the timeout value. -/
def timeoutMsg (tx_hash : String) (timeout : Nat) : String :=
  "Transaction " ++ tx_hash ++ " not mined within " ++ toString timeout ++ " seconds"

/-- One state of the `wait_for_receipt` polling loop.  Time is abstracted:
the k-th call to `get_receipt` happens at elapsed time `k * poll_interval`
(the `time.sleep(poll_interval)` between polls is the only advance of the
clock), and the loop guard `time.time() - start_time < timeout` becomes
`k * poll_interval < timeout`.  The fuel argument only forces termination;
`timeout + 1` units are enough for every `poll_interval ≥ 1`, because the
guard bounds the poll index by the timeout. -/
def waitGo (get : Nat → Option TransactionReceipt) (tx_hash : String)
    (timeout poll_interval : Nat) : Nat → Nat → Except String TransactionReceipt
  | 0, _ => .error (timeoutMsg tx_hash timeout)
  | fuel + 1, k =>
    if k * poll_interval < timeout then
      match get k with
      | some receipt => .ok receipt
      | none => waitGo get tx_hash timeout poll_interval fuel (k + 1)
    else
      .error (timeoutMsg tx_hash timeout)

/-- Embedding of `EthereumTransactionManager.wait_for_receipt` over the
sequence of receipt-query results (`get k` is the k-th poll's answer). -/
def wait_for_receipt (get : Nat → Option TransactionReceipt) (tx_hash : String)
    (timeout poll_interval : Nat) : Except String TransactionReceipt :=
  waitGo get tx_hash timeout poll_interval (timeout + 1) 0

theorem waitGo_timeout (get : Nat → Option TransactionReceipt) (tx_hash : String)
    (timeout poll_interval : Nat) :
    ∀ fuel k, (∀ j, k ≤ j → j * poll_interval < timeout → get j = none) →
      waitGo get tx_hash timeout poll_interval fuel k
        = .error (timeoutMsg tx_hash timeout) := by
  intro fuel
  induction fuel with
  | zero => intro k _; rfl
  | succ fuel ih =>
    intro k hnone
    unfold waitGo
    by_cases hk : k * poll_interval < timeout
    · rw [if_pos hk, hnone k (le_refl k) hk]
      exact ih (k + 1) (fun j hj => hnone j (Nat.le_of_succ_le hj))
    · rw [if_neg hk]

theorem waitGo_first_receipt (get : Nat → Option TransactionReceipt)
    (tx_hash : String) (timeout poll_interval : Nat) :
    ∀ fuel k0 k receipt, k0 ≤ k → k - k0 < fuel →
      k * poll_interval < timeout → get k = some receipt →
      (∀ j, k0 ≤ j → j < k → get j = none) →
      waitGo get tx_hash timeout poll_interval fuel k0 = .ok receipt := by
  intro fuel
  induction fuel with
  | zero => intro k0 k receipt _ hlt _ _ _; omega
  | succ fuel ih =>
    intro k0 k receipt hle hfuel hlt hget hnone
    unfold waitGo
    rcases Nat.eq_or_lt_of_le hle with heq | hlt0
    · subst heq
      rw [if_pos hlt, hget]
    · have hk0 : k0 * poll_interval < timeout :=
        lt_of_le_of_lt (Nat.mul_le_mul_right _ (Nat.le_of_lt hlt0)) hlt
      rw [if_pos hk0, hnone k0 (le_refl k0) hlt0]
      exact ih (k0 + 1) k receipt hlt0 (by omega) hlt hget
        (fun j hj1 hj2 => hnone j (Nat.le_of_succ_le hj1) hj2)

/-- C6: with a positive poll interval, the polling loop (a) returns the
first receipt the query produces, as soon as it appears within the timeout
window, and (b) when every poll inside the window comes back empty it
terminates with a `TimeoutError` whose message names the hash and the
timeout value; polls happen at `poll_interval` spacing (the k-th at elapsed
`k * poll_interval`), never as a busy spin or an unbounded block. -/
theorem c6_wait_for_receipt_first_or_timeout
    (get : Nat → Option TransactionReceipt) (tx_hash : String)
    (timeout poll_interval : Nat) (hp : 0 < poll_interval) :
    (∀ k receipt, k * poll_interval < timeout → get k = some receipt →
        (∀ j, j < k → get j = none) →
        wait_for_receipt get tx_hash timeout poll_interval = .ok receipt)
    ∧ ((∀ k, k * poll_interval < timeout → get k = none) →
        wait_for_receipt get tx_hash timeout poll_interval
          = .error ("Transaction " ++ tx_hash ++ " not mined within "
              ++ toString timeout ++ " seconds")) := by
  constructor
  · intro k receipt hlt hget hnone
    have hk : k < timeout + 1 := by
      have := Nat.le_mul_of_pos_right k hp
      omega
    exact waitGo_first_receipt get tx_hash timeout poll_interval (timeout + 1) 0 k
      receipt (Nat.zero_le k) (by omega) hlt hget (fun j _ hj2 => hnone j hj2)
  · intro hnone
    exact waitGo_timeout get tx_hash timeout poll_interval (timeout + 1) 0
      (fun j _ hj => hnone j hj)

/-- Witness for C6: with a receipt appearing on the second poll and a
3-unit timeout the loop returns that receipt; with no receipt ever and
`timeout = 1`, `poll_interval = 1` it raises the timeout error naming the
hash and the timeout. -/
theorem c6_wait_for_receipt_first_or_timeout_witness :
    wait_for_receipt (fun k => if k == 1 then some sampleParsedReceipt else none)
        "0xh" 3 1 = .ok sampleParsedReceipt
    ∧ wait_for_receipt (fun _ => none) "0xh" 1 1
        = .error ("Transaction " ++ "0xh" ++ " not mined within "
            ++ toString 1 ++ " seconds") := by
  constructor
  · exact (c6_wait_for_receipt_first_or_timeout
      (fun k => if k == 1 then some sampleParsedReceipt else none) "0xh" 3 1
      (by decide)).1 1 sampleParsedReceipt (by decide) (by decide)
      (fun j hj => by
        have hj0 : j = 0 := by omega
        subst hj0
        rfl)
  · exact (c6_wait_for_receipt_first_or_timeout (fun _ => none) "0xh" 1 1
      (by decide)).2 (fun k _ => rfl)

/- ===================== core/contract.py + chains/ethereum_contract.py ===================== -/

/-- One ABI parameter descriptor: `{"name": ..., "type": ...}`. -/
structure AbiParam where
  name : String
  type : String
deriving DecidableEq, Repr

/-- One ABI item as consumed by the dispatch code, with the `.get` defaults
the source uses (`constant` defaults to false, `stateMutability` may be
absent, `inputs`/`outputs` default to empty). -/
structure AbiEntry where
  type : String
  name : String
  inputs : List AbiParam := []
  outputs : List AbiParam := []
  constant : Bool := false
  stateMutability : Option String := none
deriving DecidableEq, Repr

/-- Embedding of `item.get("constant", False) or item.get("stateMutability") in ["view", "pure"]`. -/
def isConstantEntry (item : AbiEntry) : Bool :=
  item.constant || (item.stateMutability == some "view" || item.stateMutability == some "pure")

/-- The `ContractFunction` state: one callable bound to one ABI entry. -/
structure ContractFunction where
  name : String
  inputs : List AbiParam
  outputs : List AbiParam
  constant : Bool
deriving DecidableEq, Repr

/-- Embedding of `ContractFunctionGroup.__getattr__` (minus its cache): scan
the ABI for a function item with the requested name whose constancy status
matches the group (`is_constant != self.is_write` is the inclusion test in
the source), and bind a `ContractFunction` from it; no such item is an
attribute error, modelled as `none`. -/
def resolveFunction (abi : List AbiEntry) (is_write : Bool) (name : String) :
    Option ContractFunction :=
  (abi.find? (fun item => item.type == "function" && item.name == name
      && (isConstantEntry item != is_write))).map
    (fun item => { name := name, inputs := item.inputs, outputs := item.outputs,
                   constant := isConstantEntry item })

/-- Dynamic argument values are opaque to the dispatch logic; the embedding
carries them as integers, `str(arg)` being `toString`. -/
abbrev PyVal := Int

/-- Python dict membership-and-lookup on an association list. -/
def pyDictGet (m : List (String × PyVal)) (k : String) : Option PyVal :=
  (m.find? (fun p => p.1 == k)).map (fun p => p.2)

/-- The recognized transaction-option keys popped from `kwargs` first. -/
def txOptionKeys : List String := ["gas", "gas_price", "value", "nonce"]

/-- The decoded value shapes `_call_function` can produce. -/
inductive DecodedValue
  | null
  | int (n : Int)
  | str (s : String)
  | bool (b : Bool)
  | addr (a : String)
  | raw (s : String)
  | tuple (xs : List String)
deriving DecidableEq, Repr

/-- Embedding of `s.startswith(pre)` on Lean strings, reduced through their char lists. -/
def pyStartsWith (s pre : String) : Bool := pre.data.isPrefixOf s.data

/-- Python `s.rjust(width, fill)`. -/
def pyRjust (s : String) (width : Nat) (fill : Char) : String :=
  if width ≤ s.length then s
  else String.mk (List.replicate (width - s.length) fill) ++ s

/-- The output-shaping tail of `EthereumContract._call_function`: given the
declared outputs and the raw `eth_call` result, produce the decoded value
(branching on the single output's type string, tuple for several outputs);
the `int(result, 16)` branch can raise, which the caller's `try` wraps. -/
def decodeCallResult (outputs : List AbiParam) (result : String) :
    Except String DecodedValue :=
  match outputs with
  | [] => .ok .null
  | [o] =>
    if pyStartsWith o.type "uint" then
      if result == "0x" then .ok (.int 0)
      else (pyIntHex result.data).map .int
    else if o.type == "string" then .ok (.str result)
    else if o.type == "bool" then .ok (.bool (result != "0x" && result != "0x0"))
    else if o.type == "address" then .ok (.addr ("0x" ++ pyRjust (result.drop 2) 40 '0'))
    else .ok (.raw result)
  | more => .ok (.tuple (more.map (fun _ => result)))

/-- The wallet capability: address and exported signing key for "ethereum". -/
structure Wallet where
  address : String
  private_key : String

/-- The external capabilities `EthereumContract` dispatch consumes: the
provider's `eth_call` (to, data) and `eth_sendRawTransaction` requests, the
optional wallet, and the network's chain id (constant for known networks). -/
structure EthEnv where
  eth_call : String → String → Except String String
  send_raw : String → Except String String
  wallet : Option Wallet
  chain_id : Int

/-- Embedding of `f"{function_name}({','.join(input_types)})"` followed by the
stringified arguments — the placeholder calldata both dispatch paths build. -/
def callData (function_abi : AbiEntry) (function_name : String) (args : List PyVal) :
    String :=
  function_name ++ "(" ++ String.intercalate "," (function_abi.inputs.map (fun i => i.type))
    ++ ")" ++ String.join (args.map toString)

/-- Embedding of `EthereumContract._call_function`: look up the entry by
name (unwrapped error when absent), build the calldata, issue `eth_call`,
and decode; provider and decode failures are wrapped as
"Failed to call function ...". -/
def callFunction (env : EthEnv) (contract_address : String) (abi : List AbiEntry)
    (function_name : String) (args : List PyVal) (outputs : List AbiParam) :
    Except String DecodedValue :=
  match abi.find? (fun item => item.type == "function" && item.name == function_name) with
  | none => .error ("Function " ++ function_name ++ " not found in ABI")
  | some function_abi =>
    match env.eth_call contract_address (callData function_abi function_name args) with
    | .error e => .error ("Failed to call function " ++ function_name ++ ": " ++ e)
    | .ok result =>
      match decodeCallResult outputs result with
      | .error e => .error ("Failed to call function " ++ function_name ++ ": " ++ e)
      | .ok decoded => .ok decoded

/-- The builder filled by `_transact_function`: a fresh chain-primed builder
with the contract as recipient, the calldata as payload, and each recognized
option applied when present. -/
def transactBuilder (env : EthEnv) (contract_address : String)
    (function_abi : AbiEntry) (function_name : String) (args : List PyVal)
    (tx_options : List (String × PyVal)) : EthereumTransactionBuilder :=
  let b0 := ((EthereumTransactionBuilder.init env.chain_id).toAddr contract_address).data
    (callData function_abi function_name args)
  let b1 := match pyDictGet tx_options "value" with
    | some v => b0.value v
    | none => b0
  let b2 := match pyDictGet tx_options "gas" with
    | some g => b1.gas_limit g
    | none => b1
  let b3 := match pyDictGet tx_options "gas_price" with
    | some p => b2.gas_price p
    | none => b2
  match pyDictGet tx_options "nonce" with
  | some n => b3.nonce n
  | none => b3

/-- Embedding of `EthereumContract._transact_function`: require a wallet,
look up the entry, fill a fresh builder, build, sign with the wallet's key,
and broadcast; the hash returned is whatever `broadcast` returns, alongside
the updated pending map. -/
def transactFunction (env : EthEnv) (pending : List (String × EthereumTransaction))
    (contract_address : String) (abi : List AbiEntry) (function_name : String)
    (args : List PyVal) (tx_options : List (String × PyVal)) :
    Except String String × List (String × EthereumTransaction) :=
  match env.wallet with
  | none => (.error "No wallet set", pending)
  | some wallet =>
    match abi.find? (fun item => item.type == "function" && item.name == function_name) with
    | none => (.error ("Function " ++ function_name ++ " not found in ABI"), pending)
    | some function_abi =>
      match (transactBuilder env contract_address function_abi function_name args
          tx_options).build with
      | .error e => (.error e, pending)
      | .ok transaction => broadcast env.send_raw pending (transaction.sign wallet.private_key)

/-- The message built as "Missing required arguments: " plus the comma-joined names. -/
def missingArgsMsg (missing : List String) : String :=
  "Missing required arguments: " ++ String.intercalate ", " missing

/-- The argument-combining loop of `ContractFunction.__call__`: walk the
enumerated inputs; an input whose name is a keyword argument is a conflict
when its index falls inside the positional range and is otherwise appended
to the combined list. -/
def bindGo (args_len : Nat) (kwargs : List (String × PyVal)) :
    List (Nat × AbiParam) → List PyVal → Except String (List PyVal)
  | [], combined => .ok combined
  | (i, input_def) :: rest, combined =>
    match pyDictGet kwargs input_def.name with
    | some v =>
      if i < args_len then
        .error ("Argument '" ++ input_def.name
          ++ "' provided as both positional and keyword argument")
      else
        bindGo args_len kwargs rest (combined ++ [v])
    | none => bindGo args_len kwargs rest combined

/-- The two shapes a successful invocation can produce. -/
inductive DispatchOutcome
  | readValue (v : DecodedValue)
  | txHash (h : String)
deriving DecidableEq, Repr

/-- Embedding of `ContractFunction.__call__`: pop the recognized transaction
options out of `kwargs`, reject too many arguments, bind keyword arguments
onto the positional list, reject a short combined list naming
`inputs[len(combined):]`, then dispatch on the `constant` flag — the read
path returns the decoded value and leaves the pending map alone, the write
path runs `_transact_function` and yields its hash. -/
def ContractFunction.call (env : EthEnv)
    (pending : List (String × EthereumTransaction)) (contract_address : String)
    (abi : List AbiEntry) (f : ContractFunction) (args : List PyVal)
    (kwargs : List (String × PyVal)) :
    Except String DispatchOutcome × List (String × EthereumTransaction) :=
  let tx_options := kwargs.filter (fun p => txOptionKeys.contains p.1)
  let remaining := kwargs.filter (fun p => !txOptionKeys.contains p.1)
  if f.inputs.length < args.length + remaining.length then
    (.error "Too many arguments provided", pending)
  else
    match bindGo args.length remaining f.inputs.enum args with
    | .error e => (.error e, pending)
    | .ok combined_args =>
      if combined_args.length < f.inputs.length then
        (.error (missingArgsMsg ((f.inputs.drop combined_args.length).map
          (fun i => i.name))), pending)
      else
        if f.constant then
          match callFunction env contract_address abi f.name combined_args f.outputs with
          | .error e => (.error e, pending)
          | .ok decoded => (.ok (.readValue decoded), pending)
        else
          match transactFunction env pending contract_address abi f.name
              combined_args tx_options with
          | (.error e, m) => (.error e, m)
          | (.ok h, m) => (.ok (.txHash h), m)

/-- A function resolved through a group facade carries the constancy status
opposite to the group's `is_write` flag (the inclusion test in
`__getattr__`). -/
theorem resolveFunction_constant (abi : List AbiEntry) (is_write : Bool)
    (name : String) (f : ContractFunction)
    (h : resolveFunction abi is_write name = some f) :
    f.constant = !is_write := by
  unfold resolveFunction at h
  rcases Option.map_eq_some'.mp h with ⟨item, hfind, hmk⟩
  have hp := List.find?_some hfind
  simp only [Bool.and_eq_true, bne_iff_ne] at hp
  have hc : isConstantEntry item = !is_write := by
    cases hi : isConstantEntry item <;> cases hw : is_write <;> simp_all
  rw [← hmk]
  simpa using hc

/-- A successful `broadcast` means the transaction serialized, the node
accepted the payload and returned the hash, and the result map is the
pending map with exactly that entry written. -/
theorem broadcast_ok_inv (submit : String → Except String String)
    (pending : List (String × EthereumTransaction)) (tx : EthereumTransaction)
    (h : String) (m : List (String × EthereumTransaction))
    (hb : broadcast submit pending tx = (.ok h, m)) :
    ∃ serialized, tx.serialize = .ok serialized ∧ submit serialized = .ok h
      ∧ m = pyDictSet pending h tx := by
  unfold broadcast at hb
  split at hb
  · simp at hb
  · rename_i serialized hser
    split at hb
    · simp at hb
    · rename_i tx_hash hsub
      simp only [Prod.mk.injEq, Except.ok.injEq] at hb
      obtain ⟨hh, hm⟩ := hb
      subst hh
      exact ⟨serialized, hser, hsub, hm.symm⟩

/-- A freshly signed transaction serializes to the placeholder encoding. -/
theorem sign_serialize (tx : EthereumTransaction) (key : String) :
    (tx.sign key).serialize = .ok serializedStr := rfl

/-- A freshly signed transaction has all signature fields populated. -/
theorem sign_signed (tx : EthereumTransaction) (key : String) :
    (tx.sign key).signed := by
  simp [EthereumTransaction.sign, EthereumTransaction.signed]

/-- C1: routing by mutability.  A function resolved through the read facade
can only ever produce a decoded value and leaves the pending map untouched;
a function resolved through the write facade can only ever produce a
transaction hash, and a successful invocation went through
build → sign → broadcast: some signed transaction serialized, the node
returned the hash for it, and the pending map gained exactly that entry. -/
theorem c1_dispatch_read_write_routing (env : EthEnv)
    (pending : List (String × EthereumTransaction)) (contract_address : String)
    (abi : List AbiEntry) (fname : String) (f : ContractFunction)
    (args : List PyVal) (kwargs : List (String × PyVal)) :
    (resolveFunction abi false fname = some f →
      ∀ out m, ContractFunction.call env pending contract_address abi f args kwargs
          = (.ok out, m) →
        (∃ v, out = .readValue v) ∧ m = pending)
    ∧ (resolveFunction abi true fname = some f →
      ∀ out m, ContractFunction.call env pending contract_address abi f args kwargs
          = (.ok out, m) →
        ∃ tx_hash tx, out = .txHash tx_hash ∧ tx.signed
          ∧ tx.serialize = .ok serializedStr
          ∧ env.send_raw serializedStr = .ok tx_hash
          ∧ m = pyDictSet pending tx_hash tx) := by
  constructor
  · intro hres out m hcall
    have hc : f.constant = true := by
      simpa using resolveFunction_constant abi false fname f hres
    unfold ContractFunction.call at hcall
    simp only [] at hcall
    rw [hc] at hcall
    split at hcall
    · simp at hcall
    · split at hcall
      · simp at hcall
      · split at hcall
        · simp at hcall
        · split at hcall
          · split at hcall
            · simp at hcall
            · rename_i decoded hdec
              simp only [Prod.mk.injEq, Except.ok.injEq] at hcall
              exact ⟨⟨decoded, hcall.1.symm⟩, hcall.2.symm⟩
          · simp_all
  · intro hres out m hcall
    have hc : f.constant = false := by
      simpa using resolveFunction_constant abi true fname f hres
    unfold ContractFunction.call at hcall
    simp only [] at hcall
    rw [hc] at hcall
    split at hcall
    · simp at hcall
    · split at hcall
      · simp at hcall
      · split at hcall
        · simp at hcall
        · split at hcall
          · simp_all
          · split at hcall
            · simp at hcall
            · rename_i h2 m2 heq
              simp only [Prod.mk.injEq, Except.ok.injEq] at hcall
              obtain ⟨hout, hm⟩ := hcall
              unfold transactFunction at heq
              split at heq
              · simp at heq
              · rename_i wallet hwallet
                split at heq
                · simp at heq
                · rename_i function_abi hfind
                  split at heq
                  · simp at heq
                  · rename_i transaction hbuild
                    obtain ⟨serialized, hser, hsub, hmap⟩ :=
                      broadcast_ok_inv _ _ _ _ _ heq
                    have hconst : (transaction.sign wallet.private_key).serialize
                        = .ok serializedStr := sign_serialize transaction wallet.private_key
                    have hseq : serialized = serializedStr := by
                      rw [hconst] at hser
                      injection hser with hx
                      exact hx.symm
                    subst hseq
                    exact ⟨h2, transaction.sign wallet.private_key, hout.symm,
                      sign_signed transaction wallet.private_key, hconst, hsub,
                      by rw [← hm]; exact hmap⟩

/-- With no keyword arguments the binding loop returns the positional
arguments unchanged. -/
theorem bindGo_nil_kwargs (n : Nat) :
    ∀ (l : List (Nat × AbiParam)) (combined : List PyVal),
      bindGo n [] l combined = .ok combined := by
  intro l
  induction l with
  | nil => intro combined; rfl
  | cons p rest ih =>
    intro combined
    exact ih combined

def sampleWallet : Wallet := { address := "0xme", private_key := "key" }

/-- A provider that answers every `eth_call` with `0x7b` and accepts every
raw transaction with hash "0xhash", plus a wallet and mainnet chain id. -/
def sampleEnv : EthEnv :=
  { eth_call := fun _ _ => .ok "0x7b", send_raw := fun _ => .ok "0xhash",
    wallet := some sampleWallet, chain_id := 1 }

/-- A two-function ABI shaped like the ERC-20 core: a constant `balanceOf`
and a non-constant `transfer`. -/
def sampleAbi : List AbiEntry :=
  [{ type := "function", name := "balanceOf",
     inputs := [{ name := "_owner", type := "address" }],
     outputs := [{ name := "balance", type := "uint256" }],
     constant := true },
   { type := "function", name := "transfer",
     inputs := [{ name := "_to", type := "address" },
                { name := "_value", type := "uint256" }],
     outputs := [{ name := "", type := "bool" }],
     constant := false }]

def sampleReadFn : ContractFunction :=
  { name := "balanceOf", inputs := [{ name := "_owner", type := "address" }],
    outputs := [{ name := "balance", type := "uint256" }], constant := true }

def sampleWriteFn : ContractFunction :=
  { name := "transfer",
    inputs := [{ name := "_to", type := "address" },
               { name := "_value", type := "uint256" }],
    outputs := [{ name := "", type := "bool" }], constant := false }

/-- The pending map after the concrete write invocation below. -/
def sampleWritePending : List (String × EthereumTransaction) :=
  (ContractFunction.call sampleEnv [] "0xcontract" sampleAbi sampleWriteFn
    [7, 9] [("gas_price", 10)]).2

/-- Witness for C1: `balanceOf` resolved through the read facade returns the
decoded integer 123 and leaves the pending map empty; `transfer` resolved
through the write facade returns the node's hash "0xhash" with the signed
transaction recorded pending under it. -/
theorem c1_dispatch_read_write_routing_witness :
    ((∃ v, DispatchOutcome.readValue (DecodedValue.int 123)
        = DispatchOutcome.readValue v)
      ∧ ([] : List (String × EthereumTransaction)) = [])
    ∧ (∃ tx_hash tx, DispatchOutcome.txHash "0xhash" = DispatchOutcome.txHash tx_hash
        ∧ tx.signed ∧ tx.serialize = Except.ok serializedStr
        ∧ sampleEnv.send_raw serializedStr = Except.ok tx_hash
        ∧ sampleWritePending = pyDictSet [] tx_hash tx) := by
  constructor
  · exact (c1_dispatch_read_write_routing sampleEnv [] "0xcontract" sampleAbi
      "balanceOf" sampleReadFn [5] []).1 rfl (.readValue (.int 123)) [] (by rfl)
  · exact (c1_dispatch_read_write_routing sampleEnv [] "0xcontract" sampleAbi
      "transfer" sampleWriteFn [7, 9] [("gas_price", 10)]).2 rfl
      (.txHash "0xhash") sampleWritePending (by rfl)

/-- A function requiring parameters `dst` then `amount`. -/
def missingArgsFn : ContractFunction :=
  { name := "send",
    inputs := [{ name := "dst", type := "address" },
               { name := "amount", type := "uint256" }],
    outputs := [], constant := false }

/-- C8 counterexample: supplying only the SECOND parameter (`amount`) by
keyword binds it positionally and makes the missing-argument message name
`amount` — a parameter that was in fact supplied — while the actually
unbound first parameter `dst` is not named, because the source computes the
missing list positionally as `self.inputs[len(combined_args):]`. -/
theorem c8_missing_args_names_wrong_parameter :
    ContractFunction.call sampleEnv [] "0xcontract" sampleAbi missingArgsFn []
        [("amount", 5)]
      = (.error (missingArgsMsg ["amount"]), [])
    ∧ pyDictGet [("amount", (5 : PyVal))] "amount" = some 5
    ∧ missingArgsMsg ["amount"] = "Missing required arguments: amount"
    ∧ ("dst" : String) ≠ "amount" := by
  refine ⟨rfl, rfl, rfl, by decide⟩

/-- C8 amended: when the supplied arguments bind a prefix of the parameter
list (here: all positional, no keywords), the error names exactly the
unbound parameters — those from position `len(args)` on; in general the
message names the trailing `inputs[len(combined):]` parameters, which can
differ from the unbound set when a later parameter is bound by keyword. -/
theorem c8_missing_args_positional (env : EthEnv)
    (pending : List (String × EthereumTransaction)) (contract_address : String)
    (abi : List AbiEntry) (f : ContractFunction) (args : List PyVal)
    (hlen : args.length < f.inputs.length) :
    ContractFunction.call env pending contract_address abi f args []
      = (.error (missingArgsMsg ((f.inputs.drop args.length).map (fun i => i.name))),
         pending) := by
  unfold ContractFunction.call
  simp only [List.filter_nil, List.length_nil, Nat.add_zero, bindGo_nil_kwargs]
  rw [if_neg (by omega : ¬ f.inputs.length < args.length), if_pos hlen]

/-- A function with parameters `{to, value}`, as in the claim's scenario. -/
def toValueFn : ContractFunction :=
  { name := "sendValue",
    inputs := [{ name := "to", type := "address" },
               { name := "value", type := "uint256" }],
    outputs := [], constant := false }

/-- Witness for C8 (amended): the claim's own scenario — parameters
`{to, value}` invoked with only `to` — fails naming exactly `value`. -/
theorem c8_missing_args_positional_witness :
    ContractFunction.call sampleEnv [] "0xcontract" sampleAbi toValueFn [5] []
      = (.error (missingArgsMsg ["value"]), []) := by
  have h := c8_missing_args_positional sampleEnv [] "0xcontract" sampleAbi
    toValueFn [5] (by decide)
  simpa [toValueFn, missingArgsMsg] using h

/- ===================== chains/erc20.py : amount conversion ===================== -/

/-- Python `int()` on a number: truncation toward zero. -/
def pyInt (q : ℚ) : ℤ := if 0 ≤ q then ⌊q⌋ else ⌈q⌉

/-- A Python `Union[int, float]` amount.  Float arithmetic is modelled over
the rationals; the statements below only evaluate it at dyadic inputs that
binary floating point represents exactly. -/
inductive PyAmount
  | int (n : ℤ)
  | float (q : ℚ)

/-- The amount conversion in `ERC20Token.transfer` / `approve`: an `int` is
taken as base units unchanged; a `float` is converted by
`int(amount * (10 ** self.decimals))`. -/
def amountToBaseUnits (amount : PyAmount) (decimals : ℕ) : ℤ :=
  match amount with
  | .int n => n
  | .float q => pyInt (q * 10 ^ decimals)

/-- Embedding of `ERC20Token.formatted_balance_of`: `balance / (10 ** self.decimals)`. -/
def formattedBalance (balance : ℤ) (decimals : ℕ) : ℚ :=
  (balance : ℚ) / 10 ^ decimals

/-- The conversion as the claim words it: `round(a * 10^D)`. -/
def specRoundConversion (q : ℚ) (decimals : ℕ) : ℤ := round (q * 10 ^ decimals)

/-- C10 counterexample: at the exactly-representable amount a = 0.75 with
D = 0 the code truncates to 0 while the claimed `round(a * 10^D)` gives 1. -/
theorem c10_conversion_truncates_not_rounds :
    amountToBaseUnits (.float (3 / 4)) 0 = 0
    ∧ specRoundConversion (3 / 4) 0 = 1
    ∧ amountToBaseUnits (.float (3 / 4)) 0 ≠ specRoundConversion (3 / 4) 0 := by
  have h1 : amountToBaseUnits (.float (3 / 4)) 0 = 0 := by
    norm_num [amountToBaseUnits, pyInt]
  have h2 : specRoundConversion (3 / 4) 0 = 1 := by
    norm_num [specRoundConversion, round_eq]
  exact ⟨h1, h2, by rw [h1, h2]; decide⟩

/-- C10 amended: for a nonnegative float amount the conversion is the floor
(truncation) of `a * 10^D`, not its rounding; `formatted_balance_of` divides
the integer balance by `10^D`; and the round trip recovers `a` exactly
whenever `a * 10^D` is an integer (in particular for amounts expressed to at
most D decimal places). -/
theorem c10_truncating_conversion_round_trip (q : ℚ) (D : ℕ) (hq : 0 ≤ q) :
    amountToBaseUnits (.float q) D = ⌊q * 10 ^ D⌋
    ∧ (∀ k : ℤ, q * 10 ^ D = k →
        formattedBalance (amountToBaseUnits (.float q) D) D = q)
    ∧ (∀ balance : ℤ, formattedBalance balance D = (balance : ℚ) / 10 ^ D) := by
  have hpow : (0 : ℚ) < 10 ^ D := by positivity
  have hfloor : amountToBaseUnits (.float q) D = ⌊q * 10 ^ D⌋ := by
    show pyInt (q * 10 ^ D) = ⌊q * 10 ^ D⌋
    unfold pyInt
    rw [if_pos (mul_nonneg hq (le_of_lt hpow))]
  refine ⟨hfloor, ?_, fun balance => rfl⟩
  intro k hk
  rw [formattedBalance, hfloor, hk, Int.floor_intCast, ← hk]
  field_simp

/-- Witness for C10 (amended): a = 1.5 with D = 6 converts to
⌊1.5 · 10⁶⌋ = 1500000 and the formatted balance recovers 1.5 exactly. -/
theorem c10_truncating_conversion_round_trip_witness :
    amountToBaseUnits (.float (3 / 2)) 6 = ⌊(3 / 2 : ℚ) * 10 ^ 6⌋
    ∧ formattedBalance (amountToBaseUnits (.float (3 / 2)) 6) 6 = 3 / 2 := by
  have h := c10_truncating_conversion_round_trip (3 / 2) 6 (by norm_num)
  exact ⟨h.1, h.2.1 1500000 (by norm_num)⟩

end FmusFintech
